import Mathlib

/-!
Verification development for the Inevitable MATX text format toolkit.

The definitions below are a shallow embedding of the two core modules:
`textin.py` (the reader, class `TextParser`) and `textout.py` (the writer,
class `TextWriter`).  Text is modelled as Lean `String` / `List Char`;
Python exceptions are modelled with `Except` carrying structured payloads
that record the data interpolated into the Python error messages.
Python `str.strip` / `str.isspace` are modelled over the ASCII whitespace
characters that can occur in this format (space, tab, CR, LF).
-/

namespace Matx

/-- ASCII whitespace test, modelling Python `str.isspace` on the characters
reachable in this format. -/
def pyWS (c : Char) : Bool :=
  c == ' ' || c == '\t' || c == '\n' || c == '\r'

/-- Python `str.strip` on a character list. -/
def stripL (l : List Char) : List Char :=
  ((l.dropWhile pyWS).reverse.dropWhile pyWS).reverse

/-- Does the list start with the given pattern (Python `str.startswith`)? -/
def leadsWith : List Char → List Char → Bool
  | _, [] => true
  | [], _ :: _ => false
  | c :: cs, p :: ps => c == p && leadsWith cs ps

/-- Split at the first occurrence of `pat` (Python `str.split(pat, 1)` when it
finds a hit): returns the part before and the part after the pattern. -/
def splitSub (pat : List Char) : List Char → Option (List Char × List Char)
  | [] => if leadsWith [] pat then some ([], []) else none
  | c :: rest =>
    if leadsWith (c :: rest) pat then some ([], (c :: rest).drop pat.length)
    else
      match splitSub pat rest with
      | some (a, b) => some (c :: a, b)
      | none => none

/-- Python `pat in s` substring test. -/
def hasSub (pat l : List Char) : Bool := (splitSub pat l).isSome

/-- Python `ch in s` membership test for a single character. -/
def hasCh (c : Char) (l : List Char) : Bool := l.any (· == c)

/-- Python `str.split(ch)`: full split on one character, keeping empty parts. -/
def splitAllCh (ch : Char) : List Char → List (List Char)
  | [] => [[]]
  | c :: rest =>
    if c == ch then [] :: splitAllCh ch rest
    else
      match splitAllCh ch rest with
      | [] => [[c]]
      | l :: ls => (c :: l) :: ls

/-- Python `str.split()` with no argument: split on whitespace runs,
dropping empty pieces.  `cur` is the token being accumulated. -/
def wsSplitGo : List Char → List Char → List (List Char)
  | [], cur => if cur.isEmpty then [] else [cur]
  | c :: rest, cur =>
    if pyWS c then
      if cur.isEmpty then wsSplitGo rest [] else cur :: wsSplitGo rest []
    else wsSplitGo rest (cur ++ [c])

def wsSplit (l : List Char) : List (List Char) := wsSplitGo l []

/-- First character of a string; models Python `s[0]` at the call sites below,
which are only reached on non-empty strings. -/
def headCh (s : String) : Char := s.data.headD ' '

def digitOfCh (c : Char) : Nat := c.toNat - 48

def isDigitCh (c : Char) : Bool := '0' ≤ c && c ≤ '9'

def natOfDigits (l : List Char) : Nat := l.foldl (fun a c => a * 10 + digitOfCh c) 0

/-- Python `int(token)` restricted to an optional sign followed by decimal
digits (the only integer literals this format produces or consumes). -/
def parseIntTok (s : String) : Except Unit Int :=
  match s.data with
  | [] => .error ()
  | '-' :: ds => if !ds.isEmpty && ds.all isDigitCh then .ok (-(natOfDigits ds : Int)) else .error ()
  | '+' :: ds => if !ds.isEmpty && ds.all isDigitCh then .ok ((natOfDigits ds : Int)) else .error ()
  | ds => if ds.all isDigitCh then .ok ((natOfDigits ds : Int)) else .error ()

/-- Unsigned decimal literal with at most six fractional digits, valued in
millionths.  Python `float` is an IEEE double; this model keeps the exact
value of literals with at most six fractional digits, which is all the format
itself ever emits (`%.6f`), and rejects anything beyond the model. -/
def parseUFloat (l : List Char) : Except Unit Nat :=
  match splitSub ['.'] l with
  | none => if !l.isEmpty && l.all isDigitCh then .ok (natOfDigits l * 1000000) else .error ()
  | some (ip, fp) =>
    if (!ip.isEmpty || !fp.isEmpty) && ip.all isDigitCh && fp.all isDigitCh && fp.length ≤ 6 then
      .ok (natOfDigits ip * 1000000 + natOfDigits fp * 10 ^ (6 - fp.length))
    else .error ()

/-- Python `float(token)` in the millionths model. -/
def parseFloatTok (s : String) : Except Unit Int :=
  match s.data with
  | '-' :: rest => (parseUFloat rest).map (fun n => -(n : Int))
  | '+' :: rest => (parseUFloat rest).map (fun n => (n : Int))
  | l => (parseUFloat l).map (fun n => (n : Int))

/-- The four scalar kinds of the format (`TextType` in both modules). -/
inductive TType
  | integer
  | float
  | string
  | guid
deriving DecidableEq, Repr

/-- `TextType.from_char`: case-insensitive lookup, `none` when the character
is not a type character (Python falls through and returns `None`). -/
def ttFromChar (c : Char) : Option TType :=
  match c.toUpper with
  | 'D' => some .integer
  | 'F' => some .float
  | 'S' => some .string
  | 'G' => some .guid
  | _ => none

/-! ## Reader model (`textin.py`) -/

/-- `textin.TextField`: a named column group.  `types` keeps the `Option`
so that, as in Python, an unvalidated character maps to `None`. -/
structure PField where
  name : String
  typeChars : String
  types : List (Option TType)
deriving DecidableEq, Repr

def mkPField (nm tcs : List Char) : PField :=
  { name := String.mk nm, typeChars := String.mk tcs, types := tcs.map ttFromChar }

/-- A decoded scalar: integer, float (millionths model) or text.  `STRING`
tokens become `sv` after quote stripping; `GUID` tokens stay as raw text. -/
inductive PVal
  | iv (n : Int)
  | fv (u : Int)
  | sv (str : String)
deriving DecidableEq, Repr

/-- One row slot: `parse_section` stores a bare scalar for a one-component
field and a list for a multi-component field. -/
inductive RowVal
  | scalar (v : PVal)
  | vec (vs : List PVal)
deriving DecidableEq, Repr

/-- `textin.TextSection`. -/
structure PSection where
  name : String
  count : Option Int
  fields : List PField
  data : List (List RowVal)
deriving DecidableEq, Repr

/-- Structured stand-ins for the `ValueError` / `FileNotFoundError` messages
raised by `textin.py`; each constructor carries the data the Python message
interpolates. -/
inductive PErr
  | badCount (s : String)
  | missingColon (fieldName : String)
  | badTypeChar (c : Char) (fieldName : String)
  | fieldConvert (fieldName : String) (vals : List String)
  | tokenShort (fieldName : String) (expected found : Nat)
  | rowLenMismatch (rowLen fieldsLen : Nat)
  | rowCountMismatch (secName : String) (expected : Int) (found : Nat)
  | outOfFuel
deriving DecidableEq, Repr

/-- `TextField.parse_value`: convert the tokens of one field, one per typed
component, in order.  A `None` type appends nothing, as in Python. -/
def parseVals : List (Option TType × String) → Except Unit (List PVal)
  | [] => .ok []
  | (dt, v) :: rest =>
    match dt with
    | some .integer =>
      match parseIntTok v with
      | .ok n => (parseVals rest).map (PVal.iv n :: ·)
      | .error _ => .error ()
    | some .float =>
      match parseFloatTok v with
      | .ok u => (parseVals rest).map (PVal.fv u :: ·)
      | .error _ => .error ()
    | some .string =>
      let sval :=
        if leadsWith v.data ['"'] && v.data.getLast? == some '"' then
          String.mk ((v.data.drop 1).dropLast)
        else v
      (parseVals rest).map (PVal.sv sval :: ·)
    | some .guid => (parseVals rest).map (PVal.sv v :: ·)
    | none => parseVals rest

/-- The quote-aware whitespace tokenizer of `parse_section` (its inner
`for char in line` loop): whitespace splits tokens unless inside a
double-quoted run; quote characters are kept in the token. -/
def tokGo : List Char → List Char → Bool → List String
  | [], cur, _ => if cur.isEmpty then [] else [String.mk cur]
  | c :: rest, cur, inQ =>
    if c == '"' then tokGo rest (cur ++ [c]) (!inQ)
    else if pyWS c && !inQ then
      if cur.isEmpty then tokGo rest [] inQ else String.mk cur :: tokGo rest [] inQ
    else tokGo rest (cur ++ [c]) inQ

def tokenizeLine (l : List Char) : List String := tokGo l [] false

/-- The field-to-token walk of `parse_section`: field `i` consumes
`len(field.types)` tokens starting at `valueIndex`; a one-element conversion
result is stored bare.  Tokens left over once every field is served are
silently ignored, as in the source. -/
def decodeRowGo : List PField → List String → Nat → List RowVal → Except PErr (List RowVal)
  | [], _, _, acc => .ok acc
  | f :: rest, values, valueIndex, acc =>
    let num := f.types.length
    if valueIndex + num ≤ values.length then
      let fvs := (values.drop valueIndex).take num
      match parseVals (f.types.zip fvs) with
      | .error _ => .error (.fieldConvert f.name fvs)
      | .ok conv =>
        let rv := match conv with
          | [c] => RowVal.scalar c
          | cs => RowVal.vec cs
        decodeRowGo rest values (valueIndex + num) (acc ++ [rv])
    else .error (.tokenShort f.name num (values.length - valueIndex))

/-- The comment/blank-line filter of `parse_section` (its first `for line in
section_content.split('\n')` loop).  `isCom` is the `is_commentary` flag for
open `/* ... */` spans.  Note the source only recognises a `//` comment when
the stripped line starts with it. -/
def filterLinesGo : List (List Char) → Bool → List (List Char)
  | [], _ => []
  | l :: rest, isCom =>
    let ls := stripL l
    if hasSub ['/', '*'] ls && !isCom then
      let before := stripL ((splitSub ['/', '*'] ls).getD ([], [])).1
      (if !before.isEmpty && !leadsWith before ['/', '/'] then [before] else []) ++
        filterLinesGo rest true
    else if hasSub ['*', '/'] ls && isCom then
      let after := stripL ((splitSub ['*', '/'] ls).getD ([], [])).2
      (if !after.isEmpty && !leadsWith after ['/', '/'] then [after] else []) ++
        filterLinesGo rest false
    else if isCom then filterLinesGo rest true
    else if !ls.isEmpty && !leadsWith ls ['/', '/'] then ls :: filterLinesGo rest isCom
    else filterLinesGo rest isCom

/-- The field-declaration scanner of `parse_section` (its `while i <
len(fields_raw)` loop), written with explicit fuel: every iteration consumes
at least one character, so `fuel = length + 1` never runs out and the
`outOfFuel` branch is unreachable. -/
def pfGo : Nat → List Char → List PField → Except PErr (List PField)
  | 0, _, _ => .error .outOfFuel
  | _ + 1, [], acc => .ok acc
  | fuel + 1, c :: rest, acc =>
    if pyWS c || c == ',' then pfGo fuel rest acc
    else
      let nameCs := (c :: rest).takeWhile (fun x => !(x == ':'))
      match (c :: rest).dropWhile (fun x => !(x == ':')) with
      | ':' :: r2 =>
        let tyCs := r2.takeWhile Char.isAlpha
        let r3 := r2.dropWhile Char.isAlpha
        match tyCs.find? (fun x => !(hasCh x ['d', 'D', 'f', 'F', 's', 'S', 'g', 'G'])) with
        | some bad => .error (.badTypeChar bad (String.mk (stripL nameCs)))
        | none =>
          let nm := stripL nameCs
          if !nm.isEmpty && !tyCs.isEmpty then pfGo fuel r3 (acc ++ [mkPField nm tyCs])
          else pfGo fuel r3 acc
      | _ => .error (.missingColon (String.mk (stripL nameCs)))

/-- The schema-block extraction of `parse_section`: the regex
`{\s*(.*?)\s*}` with DOTALL, i.e. the (stripped) text between the first `{`
and the first `}` after it. -/
def extractBraces (content : List Char) : Option (List Char) :=
  match splitSub ['{'] content with
  | none => none
  | some (_, after) =>
    match splitSub ['}'] after with
    | none => none
    | some (between, _) => some (stripL between)

/-- The data-line decoding loop of `parse_section`. -/
def decodeLinesGo (fields : List PField) :
    List (List Char) → List (List RowVal) → Except PErr (List (List RowVal))
  | [], acc => .ok acc
  | l :: rest, acc =>
    let ls := stripL l
    if ls.isEmpty then decodeLinesGo fields rest acc
    else
      match decodeRowGo fields (tokenizeLine ls) 0 [] with
      | .error e => .error e
      | .ok row =>
        if row.length = fields.length then decodeLinesGo fields rest (acc ++ [row])
        else .error (.rowLenMismatch row.length fields.length)

/-- `TextParser.parse_section` up to (but not including) the
`self.sections[name] = section` store: build the `TextSection` for one
block of raw content. -/
def parseSectionCore (name : String) (countStr : Option String) (content : String) :
    Except PErr PSection := do
  let count : Option Int ←
    match countStr with
    | none => pure none
    | some s =>
      if s = "" then pure none
      else
        match parseIntTok s with
        | .ok i => pure (some i)
        | .error _ => .error (.badCount s)
  let fields ←
    match extractBraces content.data with
    | none => pure []
    | some raw => pfGo (raw.length + 1) raw []
  let kept := filterLinesGo (splitAllCh '\n' content.data) false
  let dataLs := kept.filter (fun l => !(leadsWith l ['{'] || leadsWith l ['-']))
  let rows ← decodeLinesGo fields dataLs []
  match count with
  | some c =>
    if (rows.length : Int) = c then pure ()
    else .error (.rowCountMismatch name c rows.length)
  | none => pure ()
  .ok { name := name, count := count, fields := fields, data := rows }

/-- The `self.sections` dictionary: name-keyed, assignment overwrites. -/
def SecMap := List (String × PSection)

instance : DecidableEq SecMap := by
  unfold SecMap
  exact inferInstance

/-- Python `self.sections[name] = section`. -/
def storeSec : List (String × PSection) → String → PSection → List (String × PSection)
  | [], n, s => [(n, s)]
  | (k, v) :: rest, n, s =>
    if k = n then (k, s) :: rest else (k, v) :: storeSec rest n s

/-- Dictionary lookup on the decoded result. -/
def lookupSec : List (String × PSection) → String → Option PSection
  | [], _ => none
  | (k, v) :: rest, n => if k = n then some v else lookupSec rest n

/-- `TextParser.parse_section` including the store into `self.sections`. -/
def parseSection (name : String) (countStr : Option String) (content : String)
    (acc : List (String × PSection)) : Except PErr (List (String × PSection)) :=
  (parseSectionCore name countStr content).map (storeSec acc name)

/-- Classification of one raw line by the scanning loop of `parse_file`:
skipped (blank after strip), a section header, or body text.  The returned
`Bool` is the updated quote-parity state. -/
inductive LineC
  | skip (inQ : Bool)
  | hdr (inQ : Bool) (name : String) (countStr : Option String)
  | body (inQ : Bool) (stripped : List Char)

/-- The `[Name]` / `[Name : Count]` header split of `parse_file`:
`line[1:line.index(']')]` split on `:`. -/
def hdrParts (l : List Char) : List (List Char) :=
  splitAllCh ':' ((l.drop 1).takeWhile (fun c => !(c == ']')))

def hdrName (l : List Char) : String := String.mk (stripL ((hdrParts l).headD []))

def hdrCount (l : List Char) : Option String :=
  match hdrParts l with
  | _ :: p2 :: _ => some (String.mk (stripL p2))
  | _ => none

def classifyLine (inQ : Bool) (lraw : List Char) : LineC :=
  let l := stripL lraw
  if l.isEmpty then .skip inQ
  else
    let inQ2 := l.foldl (fun b c => if c == '"' then !b else b) inQ
    if !inQ2 && leadsWith l ['['] && hasCh ']' l then .hdr inQ2 (hdrName l) (hdrCount l)
    else .body inQ2 l

/-- The scanning loop of `TextParser.parse_file` over the document's lines:
accumulate the current section's stripped body, and parse each completed
section as soon as the next header (or the end of input) is reached.  Lines
before the first header are discarded, as in the source. -/
def parseFileGo : List (List Char) → Bool → Option (String × Option String) → String →
    List (String × PSection) → Except PErr (List (String × PSection))
  | [], _, cur, content, acc =>
    match cur with
    | none => .ok acc
    | some (n, cs) => parseSection n cs content acc
  | lraw :: rest, inQ, cur, content, acc =>
    match classifyLine inQ lraw with
    | .skip q => parseFileGo rest q cur content acc
    | .hdr q n cs =>
      match cur with
      | none => parseFileGo rest q (some (n, cs)) "" acc
      | some (pn, pcs) =>
        match parseSection pn pcs content acc with
        | .error e => .error e
        | .ok acc2 => parseFileGo rest q (some (n, cs)) "" acc2
    | .body q l =>
      match cur with
      | none => parseFileGo rest q none content acc
      | some pc => parseFileGo rest q (some pc) (content ++ String.mk l ++ "\n") acc

/-- `TextParser.parse_file` on the document text (the file-existence check
and stream I/O are outside the model). -/
def parseFile (content : String) : Except PErr (List (String × PSection)) :=
  parseFileGo (splitAllCh '\n' content.data) false none "" []

/-- The section names `parse_file`'s scanner finds in the text, in order,
using the same line classification as the parsing loop. -/
def headerNamesGo : List (List Char) → Bool → List String
  | [], _ => []
  | lraw :: rest, inQ =>
    match classifyLine inQ lraw with
    | .skip q => headerNamesGo rest q
    | .hdr q n _ => n :: headerNamesGo rest q
    | .body q _ => headerNamesGo rest q

def headerNames (content : String) : List String :=
  headerNamesGo (splitAllCh '\n' content.data) false

/-! ## Writer model (`textout.py`) -/

/-- Decimal digit character. -/
def digitCh (d : Nat) : Char := Char.ofNat (48 + d)

/-- Decimal digits of a natural number, fuelled (one digit is produced per
step, and a number below `10 ^ fuel` has at most `fuel` digits, so the fuel
`n + 1` used by `natDigits` is always sufficient). -/
def natDigitsGo : Nat → Nat → List Char
  | 0, _ => []
  | fuel + 1, n => if n < 10 then [digitCh n] else natDigitsGo fuel (n / 10) ++ [digitCh (n % 10)]

def natDigits (n : Nat) : List Char := natDigitsGo (n + 1) n

/-- Python `f"{value}"` for an `int`: optional minus sign then digits. -/
def renderInt (i : Int) : String :=
  if i < 0 then "-" ++ String.mk (natDigits i.natAbs) else String.mk (natDigits i.toNat)

/-- Fractional part of `f"{x:.6f}"`: six zero-padded decimal digits. -/
def pad6digits (n : Nat) : List Char :=
  let d := natDigits n
  List.replicate (6 - d.length) '0' ++ d

def render6n (n : Nat) : String :=
  String.mk (natDigits (n / 1000000)) ++ "." ++ String.mk (pad6digits (n % 1000000))

/-- Python `f"{float(value):.6f}"` in the millionths model: the argument is
the value in units of `10 ^ -6`. -/
def render6 (units : Int) : String :=
  if units < 0 then "-" ++ render6n units.natAbs else render6n units.toNat

/-- Uppercase hexadecimal digit character. -/
def hexCh (d : Nat) : Char := Char.ofNat (if d < 10 then 48 + d else 55 + d)

def hexDigitsGo : Nat → Nat → List Char
  | 0, _ => []
  | fuel + 1, n => if n < 16 then [hexCh n] else hexDigitsGo fuel (n / 16) ++ [hexCh (n % 16)]

/-- Python `f"{n:08X}"`: zero-padded eight-character uppercase hex. -/
def hex8 (n : Nat) : String :=
  let d := hexDigitsGo (n + 1) n
  String.mk (List.replicate (8 - d.length) '0' ++ d)

/-- Python `f'"{value}"'`. -/
def quoteStr (s : String) : String := "\"" ++ s ++ "\""

/-- The GUID-from-integer rendering of `add_field`:
`high = (value >> 32) & 0xFFFFFFFF`, `low = value & 0xFFFFFFFF`, printed as
`"HHHHHHHH:LLLLLLLL"`.  Python `>>` is floor division by `2 ^ 32` and `&`
with the mask is `mod 2 ^ 32` (also on negatives), hence `fdiv` / `emod`. -/
def renderGuidInt (i : Int) : String :=
  quoteStr (hex8 ((i.fdiv (2 ^ 32)).emod (2 ^ 32)).toNat ++ ":" ++ hex8 (i.emod (2 ^ 32)).toNat)

def spaces (n : Nat) : String := String.mk (List.replicate n ' ')

/-- Join strings with a single space, as `' '.join(...)`. -/
def joinSp : List String → String
  | [] => ""
  | [s] => s
  | s :: rest => s ++ " " ++ joinSp rest

/-- A value handed to `TextWriter.add_field`: a Python int, a Python float
(exact at six decimals, in millionths), or a Python str. -/
inductive TWValue
  | vInt (i : Int)
  | vFloat (u : Int)
  | vStr (s : String)
deriving DecidableEq, Repr

/-- Structured stand-ins for the writer's `ValueError`s, its
`assert self.current_line < self.line_count, "Too many lines added"`, and
the `TypeError` / `IndexError` Python would raise off the typed contract. -/
inductive WErr
  | tooManyLines
  | specNoColon (spec : String)
  | valueCount (expected got : Nat)
  | fieldIdxRange (idx total : Nat)
  | fieldNameMismatch (expected got : String)
  | lenMismatch (expected got : Nat)
  | typeErr
  | entriesExhausted
  | emptyField
deriving DecidableEq, Repr

/-- `textout.TextField`: per-component running column state.
(`type_widths` / `total_width` are only written and read inside one
`add_end_line` flush, so they are computed locally there; the dead
`block_data` buffer is never read and is omitted.) -/
structure WField where
  name : String
  typeChars : String
  types : List (Option TType)
  totalSpace : List Nat
  hasNegative : List Bool
  fullSpec : String
deriving DecidableEq, Repr

def mkWField (nm tcs : List Char) : WField :=
  { name := String.mk nm
    typeChars := String.mk tcs
    types := tcs.map ttFromChar
    totalSpace := tcs.map (fun _ => 0)
    hasNegative := tcs.map (fun _ => false)
    fullSpec := String.mk nm ++ ":" ++ String.mk tcs }

/-- `textout.TypeEntry` (the fields that feed the output; `offset`,
`length` and `back_offset` are only mirrors of `value` and the dead
`block_data` buffer). -/
structure WEntry where
  fieldIndex : Nat
  typeIndex : Nat
  value : String
  isDigit : Bool
deriving DecidableEq, Repr

/-- `textout.TextWriter`: the per-section accumulator plus the lines written
to the output stream so far (`outLines` models everything `self.fp.write`
has produced, one physical line per entry). -/
structure TextWriter where
  fields : List WField
  blockNameLine : String
  lineCount : Nat
  currentLine : Nat
  currentField : Nat
  typeEntries : List WEntry
  outLines : List String
deriving DecidableEq, Repr

def initW : TextWriter :=
  { fields := [], blockNameLine := "", lineCount := 0, currentLine := 0,
    currentField := 0, typeEntries := [], outLines := [] }

def negOf (i : Int) : Bool := decide (i < 0)

/-- The per-type rendering dispatch of `add_field` (lines 151-174): returns
the entry's `value` string, its `is_digit` flag, and whether this value sets
`has_negative`.  Mistyped combinations that make Python format a float with
`repr` are out of the model and reported as `typeErr` (Python raises
`TypeError` on `GUID`+float and on a string compared with `0`; the claims
only exercise well-typed calls). -/
def entryFor (dt : Option TType) (v : TWValue) : Except WErr (String × Bool × Bool) :=
  match dt, v with
  | some .integer, .vInt i => .ok (renderInt i, true, negOf i)
  | some .integer, _ => .error .typeErr
  | some .float, .vInt i => .ok (render6 (i * 1000000), true, negOf i)
  | some .float, .vFloat u => .ok (render6 u, true, negOf u)
  | some .float, .vStr s =>
    match parseFloatTok s with
    | .ok u => .ok (s, true, negOf u)
    | .error _ => .error .typeErr
  | some .string, .vStr s => .ok (quoteStr s, false, false)
  | some .string, .vInt i => .ok (quoteStr (renderInt i), false, false)
  | some .string, .vFloat _ => .error .typeErr
  | some .guid, .vStr s => .ok (quoteStr s, false, false)
  | some .guid, .vInt i => .ok (renderGuidInt i, false, false)
  | some .guid, .vFloat _ => .error .typeErr
  | none, _ => .ok ("", false, false)

/-- The inner `for j, (value, data_type) in enumerate(zip(...))` loop of
`add_field`: render each component, update `has_negative[j]` and
`total_space[j]` (the width accounting uses `has_negative` as it stands at
this call), and append a `TypeEntry`. -/
def addComps : List (Option TType × TWValue) → Nat → Nat → WField → List WEntry →
    Except WErr (WField × List WEntry)
  | [], _, _, f, es => .ok (f, es)
  | (dt, v) :: rest, fieldIdx, j, f, es => do
    let (val, isDig, neg) ← entryFor dt v
    let hn := f.hasNegative.getD j false || neg
    let f := { f with hasNegative := f.hasNegative.set j hn }
    let bw := val.length + (if isDig && !(headCh val == '-') && hn then 1 else 0)
    let f :=
      if f.totalSpace.getD j 0 < bw then { f with totalSpace := f.totalSpace.set j bw }
      else f
    addComps rest fieldIdx (j + 1) f
      (es ++ [{ fieldIndex := fieldIdx, typeIndex := j, value := val, isDigit := isDig }])

/-- The outer `for i, spec in enumerate(field_specs)` loop of `add_field`:
on the section's first line each spec defines a new field; on later lines it
must match the already-declared field at the same position. -/
def addSpecs : List (List Char × List Char) → Nat → Nat → List TWValue → Bool →
    List WField → List WEntry → Except WErr (List WField × List WEntry)
  | [], _, _, _, _, fields, es => .ok (fields, es)
  | (nm, tcs) :: rest, i, origCF, vals, isFirst, fields, es =>
    let idx := origCF + i
    let fvs := vals.take tcs.length
    let vrest := vals.drop tcs.length
    if isFirst then
      match addComps ((mkWField nm tcs).types.zip fvs) idx 0 (mkWField nm tcs) [] with
      | .error e => .error e
      | .ok (f2, newEs) => addSpecs rest (i + 1) origCF vrest isFirst (fields ++ [f2]) (es ++ newEs)
    else
      if h : idx < fields.length then
        let f := fields.get ⟨idx, h⟩
        if f.name = String.mk nm then
          if fvs.length = f.types.length then
            match addComps (f.types.zip fvs) idx 0 f [] with
            | .error e => .error e
            | .ok (f2, newEs) =>
              addSpecs rest (i + 1) origCF vrest isFirst (fields.set idx f2) (es ++ newEs)
          else .error (.lenMismatch f.types.length fvs.length)
        else .error (.fieldNameMismatch f.name (String.mk nm))
      else .error (.fieldIdxRange idx fields.length)

/-- `spec.split(":", 1)` with the "must include types" check. -/
def splitSpec (sp : List Char) : Except WErr (List Char × List Char) :=
  match splitSub [':'] sp with
  | none => .error (.specNoColon (String.mk sp))
  | some (n, t) => .ok (n, t)

def mapEx {α β : Type} (f : α → Except WErr β) : List α → Except WErr (List β)
  | [] => .ok []
  | a :: rest => do
    let b ← f a
    let bs ← mapEx f rest
    .ok (b :: bs)

/-- `TextWriter.add_field`. -/
def addField (w : TextWriter) (fieldSpec : String) (vals : List TWValue) :
    Except WErr TextWriter := do
  if w.currentLine < w.lineCount then
    let specsRaw := wsSplit fieldSpec.data
    let specs ← mapEx splitSpec specsRaw
    let expected := (specs.map (fun p => p.2.length)).foldl (· + ·) 0
    if vals.length = expected then
      let (fields2, entries2) ←
        addSpecs specs 0 w.currentField vals (w.currentLine == 0) w.fields []
      .ok { w with fields := fields2, typeEntries := w.typeEntries ++ entries2,
                   currentField := w.currentField + specsRaw.length }
    else .error (.valueCount expected vals.length)
  else .error .tooManyLines

/-- The `entry.is_digit and field.has_negative[type_idx] and entry.value[0]
!= '-'` sign-column padding of `add_end_line` (lines 238-240). -/
def signPad (isDig hn : Bool) (value : String) : String :=
  if isDig && hn && !(headCh value == '-') then " " else ""

/-- A field together with its flush-time layout (`field.type_widths` and
`field.total_width`, computed at the start of `add_end_line`'s flush). -/
structure FW where
  field : WField
  widths : List Nat
  total : Nat
deriving DecidableEq, Repr

def bumpLast (d : Nat) : List Nat → List Nat
  | [] => []
  | [x] => [x + d]
  | x :: rest => x :: bumpLast d rest

/-- The column-width computation of `add_end_line` (lines 202-217):
each component gets `max(total_space, 1)`, the field total adds one
separating space per extra component, and the last component absorbs any
width needed so the `name:typechars` header spec is never truncated.
A field with an empty component list would make Python index `[-1]` into an
empty list (`IndexError`); that is surfaced as `emptyField`. -/
def colWidths (f : WField) : Except WErr FW :=
  let tws := f.totalSpace.map (fun t => max t 1)
  match tws with
  | [] => .error .emptyField
  | _ :: _ =>
    let total := tws.foldl (· + ·) 0 + tws.length - 1
    let hl := f.fullSpec.length
    if total < hl then .ok { field := f, widths := bumpLast (hl - total) tws, total := hl }
    else .ok { field := f, widths := tws, total := total }

/-- The per-component rendering loop of one field in `add_end_line`
(lines 234-251): consume one entry per component, apply the sign pad,
pad every component but the last to its column width, one space between
components.  Returns the accumulated string, the `current_width` counter
(an `Int`, since the source adds a possibly negative `padding + 1`), and
the remaining entries. -/
def emitCompsGo : List (Nat × Bool) → List WEntry → Except WErr (String × Int × List WEntry)
  | [], es => .ok ("", 0, es)
  | (tw, hn) :: rest, es =>
    match es with
    | [] => .error .entriesExhausted
    | e :: es2 =>
      let vs := signPad e.isDigit hn e.value ++ e.value
      match rest with
      | [] => .ok (vs, (vs.length : Int), es2)
      | r :: rs =>
        let pad : Int := (tw : Int) - vs.length
        let seg := vs ++ (if 0 < pad then spaces pad.toNat else "") ++ " "
        match emitCompsGo (r :: rs) es2 with
        | .error err => .error err
        | .ok (tl, cw, esf) => .ok (seg ++ tl, (vs.length : Int) + pad + 1 + cw, esf)

/-- One field's cell in one data line, padded at the end to `total_width`
(lines 230-254). -/
def emitField (fw : FW) (es : List WEntry) : Except WErr (String × List WEntry) := do
  let (s, cw, es2) ← emitCompsGo (fw.widths.zip fw.field.hasNegative) es
  .ok (if cw < (fw.total : Int) then s ++ spaces ((fw.total : Int) - cw).toNat else s, es2)

def emitFieldsGo : List FW → List WEntry → Except WErr (List String × List WEntry)
  | [], es => .ok ([], es)
  | fw :: rest, es => do
    let (s, es2) ← emitField fw es
    let (more, esf) ← emitFieldsGo rest es2
    .ok (s :: more, esf)

/-- The `//`-prefixed header repeated inside long sections (lines 265-269). -/
def repHeaderLine (fws : List FW) : String :=
  "// " ++ joinSp (fws.map (fun fw => fw.field.fullSpec ++ spaces (fw.total - fw.field.fullSpec.length)))

/-- The header-repetition trigger of `add_end_line` (line 263):
`(line_idx + 1) % 80 == 0 and (self.line_count - line_idx) > 10`. -/
def headerRepeatAfter (lineCount idx : Nat) : Bool :=
  (idx + 1) % 80 == 0 && decide (lineCount - idx > 10)

/-- The data-line emission loop of `add_end_line` (lines 226-270): one line
per row (three leading spaces, fields joined by single spaces), re-emitting
separator + header + separator after a line whenever `headerRepeatAfter`
fires.  Structured by countdown `k` with `idx` the current `line_idx`. -/
def emitRows (fws : List FW) (sep : String) (lineCount : Nat) :
    Nat → Nat → List WEntry → Except WErr (List String)
  | 0, _, _ => .ok []
  | k + 1, idx, es => do
    let (parts, es2) ← emitFieldsGo fws es
    let rest ← emitRows fws sep lineCount k (idx + 1) es2
    .ok (("   " ++ joinSp parts) ::
      ((if headerRepeatAfter lineCount idx then [sep, repHeaderLine fws, sep] else []) ++ rest))

/-- The one-shot flush of a finalized section (`add_end_line` lines
197-272): header line, schema line, separator, all data lines, and a
trailing blank line. -/
def flushSection (w : TextWriter) : Except WErr (List String) := do
  let fws ← mapEx colWidths w.fields
  let headerLine :=
    " \x7b " ++ joinSp (fws.map (fun fw => fw.field.fullSpec ++ spaces (fw.total - fw.field.fullSpec.length))) ++ " \x7d"
  let sepLine := "// " ++ joinSp (fws.map (fun fw => String.mk (List.replicate fw.total '-'))) ++ " "
  let dataLines ← emitRows fws sepLine w.lineCount w.lineCount 0 w.typeEntries
  .ok ([w.blockNameLine, headerLine, sepLine] ++ dataLines ++ [""])

/-- `TextWriter.add_end_line`: advance the line cursor; flush the whole
section when the declared count is reached (or when it is zero). -/
def addEndLine (w : TextWriter) : Except WErr TextWriter := do
  let w := { w with currentLine := w.currentLine + 1, currentField := 0 }
  if w.lineCount = 0 || w.currentLine = w.lineCount then
    let flushed ← flushSection w
    .ok { w with outLines := w.outLines ++ flushed }
  else .ok w

/-- `TextWriter.add_header`: reset the per-section accumulators; a negative
count means "no declared count" and sets the line budget to 1; a zero count
flushes immediately. -/
def addHeader (w : TextWriter) (headerName : String) (count : Int) : Except WErr TextWriter :=
  let w2 := { w with
    lineCount := if count < 0 then 1 else count.toNat
    currentLine := 0
    currentField := 0
    typeEntries := []
    fields := []
    blockNameLine :=
      if count < 0 then "[ " ++ headerName ++ " ]"
      else "[ " ++ headerName ++ " : " ++ renderInt count ++ " ]" }
  if count = 0 then addEndLine w2 else .ok w2

/-- One call on the writer.  `closeFile` models `close_file`, which closes
the stream without flushing or checking anything. -/
inductive WOp
  | header (name : String) (count : Int)
  | field (spec : String) (vals : List TWValue)
  | endLine
  | closeFile
deriving DecidableEq, Repr

def runOp (w : TextWriter) : WOp → Except WErr TextWriter
  | .header n c => addHeader w n c
  | .field sp vs => addField w sp vs
  | .endLine => addEndLine w
  | .closeFile => .ok w

/-- Run a sequence of writer calls, stopping at the first raised error. -/
def runW : List WOp → TextWriter → Except WErr TextWriter
  | [], w => .ok w
  | op :: rest, w =>
    match runOp w op with
    | .error e => .error e
    | .ok w2 => runW rest w2

/-- The byte stream `self.fp` has received: every line followed by `\n`. -/
def outputStr (w : TextWriter) : String :=
  String.join (w.outLines.map (fun l => l ++ "\n"))

/-- `n` identical single-field data rows, as writer calls. -/
def rowsOps (n : Nat) : List WOp :=
  (List.replicate n [WOp.field "a:d" [TWValue.vInt 1], WOp.endLine]).flatten

/-- The error carried by a failed computation, `none` on success. -/
def errSide {ε α : Type} : Except ε α → Option ε
  | .error e => some e
  | .ok _ => none

/-- The accumulated `has_negative` flag of one (field, component) column
over the integer values written to it, exactly the per-value
`if value < 0: field.has_negative[j] = True` update that `addComps`
performs for each row. -/
def colHasNeg (vs : List Int) : Bool := vs.foldl (fun b i => b || negOf i) false

/-! ## Theorems -/

/-- Claim C1.  The round trip is broken by the code: the writer's own
output for a section whose sole (first-column) value is the negative
integer `-3` is rejected by the reader.  The emitted data line `   -3 `
strips to `-3`, which `parse_section`'s separator filter
(`line.startswith('-')`) discards, so the reader finds 0 of the declared 1
rows and raises instead of returning the section the writer encoded. -/
theorem roundtrip_negative_first_column_breaks :
    (runW [WOp.header "A" 1, WOp.field "x:d" [TWValue.vInt (-3)], WOp.endLine]
        initW).toOption.map outputStr
      = some "[ A : 1 ]\n { x:d }\n// --- \n   -3 \n\n"
    ∧ errSide (parseFile "[ A : 1 ]\n { x:d }\n// --- \n   -3 \n\n")
      = some (PErr.rowCountMismatch "A" 1 0) := by
  decide

/-- Claim C2.  The column-alignment invariant fails: in a one-field
integer section with rows `100` then `-3`, the width accounting of
`add_field` ran before `has_negative` became true, so the flush renders
` 100` (width 4) into a column of computed width 3 while `-3 ` occupies
width 3 — the two data lines of the same single-column section even have
different lengths. -/
theorem alignment_breaks_late_negative :
    (runW [WOp.header "A" 2, WOp.field "A:d" [TWValue.vInt 100], WOp.endLine,
           WOp.field "A:d" [TWValue.vInt (-3)], WOp.endLine] initW).toOption.map
        TextWriter.outLines
      = some ["[ A : 2 ]", " { A:d }", "// --- ", "    100", "   -3 ", ""]
    ∧ "    100".length ≠ "   -3 ".length := by
  decide

/-- Claim C3, counterexample to the write-side half: declaring count 3 and
supplying only 2 rows before `close_file` raises nothing — the run
succeeds and no output at all is flushed (the claimed
`RowCountMismatch`/assertion failure does not exist on the write side). -/
theorem undercount_write_raises_nothing :
    (runW [WOp.header "Foo" 3, WOp.field "a:d" [TWValue.vInt 1], WOp.endLine,
           WOp.field "a:d" [TWValue.vInt 2], WOp.endLine, WOp.closeFile]
        initW).toOption.map TextWriter.outLines
      = some [] := by
  decide

/-- Claim C3 as amended: on the write side an under-filled section is
silently never flushed (no error, no output); on the read side a document
declaring `: 3` over 2 data rows fails with an error carrying both the
expected count 3 and the actual count 2. -/
theorem count_enforcement_amended :
    (runW [WOp.header "Bar" 3, WOp.field "a:d" [TWValue.vInt 1], WOp.endLine,
           WOp.field "a:d" [TWValue.vInt 2], WOp.endLine, WOp.closeFile]
        initW).toOption.map TextWriter.outLines
      = some []
    ∧ errSide (parseFile "[ Foo : 3 ]\n { a:d }\n 1\n 2\n")
      = some (PErr.rowCountMismatch "Foo" 3 2) := by
  decide

/-- Claim C4, counterexample: in a section of declared count 90 exactly 10
data lines remain after the 80th, which is not "more than 10", yet the
writer does re-emit the header block there: `headerRepeatAfter 90 79` is
true, and the emission loop, entering the 80th data line (`line_idx` 79) of
a count-90 single-integer-field section, inserts the separator, the `//`
header and the separator again right after that line. -/
theorem header_repeat_at_ten_remaining :
    headerRepeatAfter 90 79 = true ∧ 90 - (79 + 1) = 10 ∧ ¬(10 > 10)
    ∧ emitRows [{ field := { name := "a", typeChars := "d", types := [some TType.integer],
                             totalSpace := [1], hasNegative := [false], fullSpec := "a:d" },
                  widths := [3], total := 3 }]
        "// --- " 90 2 79
        [{ fieldIndex := 0, typeIndex := 0, value := "1", isDigit := true },
         { fieldIndex := 0, typeIndex := 0, value := "1", isDigit := true }]
      = .ok ["   1  ", "// --- ", "// a:d", "// --- ", "   1  "] := by
  exact ⟨rfl, rfl, by omega, rfl⟩

/-- Claim C4 as amended: the header block is repeated after the
`(idx + 1)`-th data line iff that index is a multiple of 80 and at least
10 (not: more than 10) data lines remain after it; over a count of 200
this fires exactly after lines 80 and 160. -/
theorem header_repeat_characterisation :
    (∀ lineCount idx : Nat,
        headerRepeatAfter lineCount idx = true ↔ ((idx + 1) % 80 = 0 ∧ idx + 11 ≤ lineCount))
    ∧ ((List.range 200).all
        (fun idx => headerRepeatAfter 200 idx == ((idx == 79) || (idx == 159)))) = true := by
  refine ⟨fun lineCount idx => ?_, by decide⟩
  simp only [headerRepeatAfter, Bool.and_eq_true, beq_iff_eq, decide_eq_true_eq]
  omega

/-- Claim C5, counterexample: a mid-line `//` outside quotes is not
treated as a comment by the reader.  On the line `"x" // "y" "z"` under
the schema `a:s b:s c:s`, the marker itself is decoded as field `b` and
the token `"y"` appearing after the `//` is decoded as field `c` — not
excluded from the row as the claim requires. -/
theorem midline_comment_is_decoded :
    (parseFile "[ S ]\n { a:s b:s c:s }\n\"x\" // \"y\" \"z\"\n").toOption
      = some [("S",
        { name := "S", count := none,
          fields := [{ name := "a", typeChars := "s", types := [some TType.string] },
                     { name := "b", typeChars := "s", types := [some TType.string] },
                     { name := "c", typeChars := "s", types := [some TType.string] }],
          data := [[RowVal.scalar (PVal.sv "x"), RowVal.scalar (PVal.sv "//"),
                    RowVal.scalar (PVal.sv "y")]] })]
    ∧ RowVal.scalar (PVal.sv "y")
        ∈ [RowVal.scalar (PVal.sv "x"), RowVal.scalar (PVal.sv "//"),
           RowVal.scalar (PVal.sv "y")] := by
  decide

/-- Claim C5 as amended: only a line whose stripped form starts with `//`
is dropped as a comment; a mid-line `//` is ordinary token text, decoded
into the row when the schema consumes it (tokens beyond those the schema
needs are silently ignored), while tokens before it are decoded as usual. -/
theorem comment_stripping_amended :
    (parseFile "[ S ]\n { a:d }\n// 7\n5\n").toOption
      = some [("S",
        { name := "S", count := none,
          fields := [{ name := "a", typeChars := "d", types := [some TType.integer] }],
          data := [[RowVal.scalar (PVal.iv 5)]] })]
    ∧ (parseFile "[ S ]\n { a:s b:s c:s }\n\"x\" // \"y\" \"z\"\n").toOption.map
        (fun m => (lookupSec m "S").map PSection.data)
      = some (some [[RowVal.scalar (PVal.sv "x"), RowVal.scalar (PVal.sv "//"),
                     RowVal.scalar (PVal.sv "y")]]) := by
  decide

/-- Claim C6: the reader's tokenizer splits on whitespace but keeps a
double-quoted run (quotes included) as one token, so
`5 "a value with spaces"` under `Index:d Name:s` decodes to the integer 5
and the single quote-stripped string `a value with spaces`. -/
theorem quote_aware_tokenization :
    tokenizeLine ("5 \"a value with spaces\"").data
      = ["5", "\"a value with spaces\""]
    ∧ (parseFile "[ S ]\n { Index:d Name:s }\n5 \"a value with spaces\"\n").toOption
      = some [("S",
        { name := "S", count := none,
          fields := [{ name := "Index", typeChars := "d", types := [some TType.integer] },
                     { name := "Name", typeChars := "s", types := [some TType.string] }],
          data := [[RowVal.scalar (PVal.iv 5),
                    RowVal.scalar (PVal.sv "a value with spaces")]] })] := by
  decide

/-- Claim C7: a Guid component renders a textual value quoted as a string,
and renders an integer value as the high and low 32-bit halves, each as 8
uppercase hex digits; in particular `0x0123456789ABCDEF` renders as
`"01234567:89ABCDEF"`. -/
theorem guid_rendering :
    (∀ s : String, entryFor (some TType.guid) (TWValue.vStr s) = .ok (quoteStr s, false, false))
    ∧ entryFor (some TType.guid) (TWValue.vInt 0x0123456789ABCDEF)
      = .ok ("\"01234567:89ABCDEF\"", false, false)
    ∧ (∀ i : Int, entryFor (some TType.guid) (TWValue.vInt i)
        = .ok (renderGuidInt i, false, false)) := by
  refine ⟨fun s => rfl, by rfl, fun i => rfl⟩

/-- Heads of a cons-headed string survive appending. -/
theorem headCh_cons_append (c : Char) (l : List Char) (s : String) :
    headCh (String.mk (c :: l) ++ s) = c := by
  cases s; rfl

/-- Appending the empty string on the left is the identity. -/
theorem strNil_append (s : String) : "" ++ s = s := by
  cases s; rfl

theorem strLength_mk (l : List Char) : (String.mk l).length = l.length := rfl

theorem strLength_append (a b : String) : (a ++ b).length = a.length + b.length := by
  cases a with
  | mk la =>
    cases b with
    | mk lb => exact List.length_append la lb

/-- Every character produced by the decimal digit renderer is a digit. -/
theorem natDigitsGo_mem :
    ∀ (fuel n : Nat) (c : Char), c ∈ natDigitsGo fuel n → ∃ d, d < 10 ∧ c = digitCh d := by
  intro fuel
  induction fuel with
  | zero => intro n c h; simp [natDigitsGo] at h
  | succ k ih =>
    intro n c h
    by_cases hn : n < 10
    · simp [natDigitsGo, hn] at h
      exact ⟨n, hn, h⟩
    · simp [natDigitsGo, hn] at h
      rcases h with h | h
      · exact ih _ _ h
      · exact ⟨n % 10, Nat.mod_lt _ (by omega), h⟩

theorem natDigits_ne_nil (n : Nat) : natDigits n ≠ [] := by
  simp only [natDigits, natDigitsGo]
  split
  · simp
  · simp [List.append_eq_nil]

/-- The leading character of a rendered natural number is a decimal digit. -/
theorem natDigits_head (n : Nat) : ∃ d, d < 10 ∧ (natDigits n).headD ' ' = digitCh d := by
  obtain ⟨c, l, e⟩ := List.exists_cons_of_ne_nil (natDigits_ne_nil n)
  obtain ⟨d, hd, hc⟩ := natDigitsGo_mem (n + 1) n c
    (by rw [show natDigitsGo (n + 1) n = c :: l from e]; exact List.mem_cons_self c l)
  refine ⟨d, hd, ?_⟩
  rw [e]
  simpa using hc

theorem digitCh_ne_dash {d : Nat} (h : d < 10) : (digitCh d == '-') = false := by
  interval_cases d <;> decide

theorem strData_append (a b : String) : (a ++ b).data = a.data ++ b.data := by
  cases a; cases b; rfl

/-- The head of a string survives a right append when the string is
non-empty. -/
theorem headCh_append (a b : String) (h : a.data ≠ []) : headCh (a ++ b) = headCh a := by
  cases a with
  | mk la =>
    cases la with
    | nil => exact absurd rfl h
    | cons c l => cases b; rfl

/-- The leading character of the 6-decimal float rendering's unsigned part
is a decimal digit. -/
theorem render6n_head (n : Nat) : ∃ d, d < 10 ∧ headCh (render6n n) = digitCh d := by
  obtain ⟨d, hd, hh⟩ := natDigits_head (n / 1000000)
  refine ⟨d, hd, ?_⟩
  have h2 : (String.mk (natDigits (n / 1000000))).data ≠ [] := natDigits_ne_nil _
  have h1 : (String.mk (natDigits (n / 1000000)) ++ ".").data ≠ [] := by
    rw [strData_append]
    simp [List.append_eq_nil]
  unfold render6n
  rw [headCh_append _ _ h1, headCh_append _ _ h2]
  exact hh

/-- Mapping the non-negative branch of `parseFloatTok` never yields a
negative value. -/
theorem ufloat_map_nonneg (l : List Char) (u : Int)
    (h : (parseUFloat l).map (fun n => (n : Int)) = .ok u) : 0 ≤ u := by
  cases hr : parseUFloat l with
  | error e => rw [hr] at h; exact Except.noConfusion h
  | ok n =>
    rw [hr] at h
    have h2 : (Except.ok ((n : Int)) : Except Unit Int) = Except.ok u := h
    injection h2 with h3
    omega

/-- A token that `float()` reads as a strictly negative value starts with
the `-` sign character. -/
theorem parseFloatTok_neg_head (s : String) (u : Int) (h : parseFloatTok s = .ok u)
    (hu : u < 0) : headCh s = '-' := by
  unfold parseFloatTok at h
  split at h
  next rest heq =>
    show s.data.headD ' ' = '-'
    rw [heq]
    rfl
  next rest heq => exact absurd (ufloat_map_nonneg rest u h) (by omega)
  next l hne1 hne2 => exact absurd (ufloat_map_nonneg _ u h) (by omega)

/-- Claim C8: once any value of a numeric (Integer or Float) column is
negative (`colHasNeg`, the accumulated `has_negative` flag of
`add_field`), every value the flush renders for that column reserves
exactly one leading sign-column character — a negative value through its
`-` sign, a non-negative one through the extra space `signPad` inserts —
independently of the order in which the values were added, since
`has_negative` is consulted again at flush time.  The four parts cover
the writer's numeric rendering paths: Integer values (`renderInt`), Float
values in the millionths model (`render6`, which also renders an `int`
passed to a Float component as `render6 (i * 1000000)` with the same
sign), a float passed as a raw string (negative only when the token
itself starts with `-`, which then is its sign column and suppresses the
pad), and the generic fact that a sign-column character — `-` or the
padding space — always leads the rendered value in a negative-bearing
column. -/
theorem sign_column_reserved :
    (∀ vs : List Int, colHasNeg vs = true → ∀ i ∈ vs,
        (signPad true (colHasNeg vs) (renderInt i) ++ renderInt i).length
          = (natDigits i.natAbs).length + 1
        ∧ headCh (signPad true (colHasNeg vs) (renderInt i) ++ renderInt i)
          = (if i < 0 then '-' else ' '))
    ∧ (∀ us : List Int, colHasNeg us = true → ∀ u ∈ us,
        (signPad true (colHasNeg us) (render6 u) ++ render6 u).length
          = (render6n u.natAbs).length + 1
        ∧ headCh (signPad true (colHasNeg us) (render6 u) ++ render6 u)
          = (if u < 0 then '-' else ' '))
    ∧ (∀ (s : String) (u : Int), parseFloatTok s = .ok u → u < 0 →
        headCh s = '-' ∧ signPad true true s ++ s = s)
    ∧ (∀ s : String, headCh (signPad true true s ++ s) = '-'
        ∨ headCh (signPad true true s ++ s) = ' ') := by
  refine ⟨?_, ?_, ?_, ?_⟩
  · intro vs hneg i hmem
    rw [hneg]
    by_cases hi : i < 0
    · have hr : renderInt i = "-" ++ String.mk (natDigits i.natAbs) := by
        simp [renderInt, hi]
      have hhd : headCh (renderInt i) = '-' := by
        rw [hr]; exact headCh_cons_append '-' [] _
      have hsp : signPad true true (renderInt i) = "" := by
        simp [signPad, hhd]
      rw [hsp]
      constructor
      · rw [strNil_append, hr, strLength_append]
        simp only [strLength_mk]
        show 1 + _ = _ + 1
        omega
      · rw [strNil_append, hhd, if_pos hi]
    · have hr : renderInt i = String.mk (natDigits i.toNat) := by
        simp [renderInt, hi]
      have hab : i.natAbs = i.toNat := by omega
      obtain ⟨d, hd, hh⟩ := natDigits_head i.toNat
      have hhd : headCh (renderInt i) = digitCh d := by rw [hr]; exact hh
      have hsp : signPad true true (renderInt i) = " " := by
        simp [signPad, hhd, digitCh_ne_dash hd]
      rw [hsp]
      constructor
      · rw [strLength_append, hr, hab]
        simp only [strLength_mk]
        show 1 + _ = _ + 1
        omega
      · rw [hr, if_neg hi]
        exact headCh_cons_append ' ' [] _
  · intro us hneg u hmem
    rw [hneg]
    by_cases hu : u < 0
    · have hr : render6 u = "-" ++ render6n u.natAbs := by
        simp [render6, hu]
      have hhd : headCh (render6 u) = '-' := by
        rw [hr]; exact headCh_cons_append '-' [] _
      have hsp : signPad true true (render6 u) = "" := by
        simp [signPad, hhd]
      rw [hsp]
      constructor
      · rw [strNil_append, hr, strLength_append]
        show 1 + _ = _ + 1
        omega
      · rw [strNil_append, hhd, if_pos hu]
    · have hr : render6 u = render6n u.toNat := by
        simp [render6, hu]
      have hab : u.natAbs = u.toNat := by omega
      obtain ⟨d, hd, hh⟩ := render6n_head u.toNat
      have hhd : headCh (render6 u) = digitCh d := by rw [hr]; exact hh
      have hsp : signPad true true (render6 u) = " " := by
        simp [signPad, hhd, digitCh_ne_dash hd]
      rw [hsp]
      constructor
      · rw [strLength_append, hr, hab]
        show 1 + _ = _ + 1
        omega
      · rw [hr, if_neg hu]
        exact headCh_cons_append ' ' [] _
  · intro s u h hu
    have hhd : headCh s = '-' := parseFloatTok_neg_head s u h hu
    have hsp : signPad true true s = "" := by
      simp [signPad, hhd]
    exact ⟨hhd, by rw [hsp, strNil_append]⟩
  · intro s
    by_cases hc : headCh s = '-'
    · left
      have hb : (headCh s == '-') = true := by simp [hc]
      have hsp : signPad true true s = "" := by simp [signPad, hb]
      rw [hsp, strNil_append, hc]
    · right
      have hb : (headCh s == '-') = false := by
        simp only [beq_eq_false_iff_ne, ne_eq]
        exact hc
      have hsp : signPad true true s = " " := by simp [signPad, hb]
      rw [hsp]
      exact headCh_cons_append ' ' [] s

/-- Claim C8, witness: the Integer column `[-3, 5]` and the Float column
`[-1.5, 2.25]` each contain a negative value; every value of either
column reserves the sign column (`-3` / ` 5` both of width 2,
`-1.500000` / ` 2.250000` both of width 9); the token `-1.5` parsed by
the float-from-string path starts with its own `-` sign and takes no
extra pad; and the full writer aligns both sections. -/
theorem sign_column_reserved_witness :
    colHasNeg [-3, 5] = true
    ∧ ((signPad true (colHasNeg [-3, 5]) (renderInt 5) ++ renderInt 5).length
        = (natDigits (Int.natAbs 5)).length + 1
      ∧ headCh (signPad true (colHasNeg [-3, 5]) (renderInt 5) ++ renderInt 5)
        = (if (5 : Int) < 0 then '-' else ' '))
    ∧ ((signPad true (colHasNeg [-3, 5]) (renderInt (-3)) ++ renderInt (-3)).length
        = (natDigits (Int.natAbs (-3))).length + 1
      ∧ headCh (signPad true (colHasNeg [-3, 5]) (renderInt (-3)) ++ renderInt (-3))
        = (if (-3 : Int) < 0 then '-' else ' '))
    ∧ colHasNeg [-1500000, 2250000] = true
    ∧ ((signPad true (colHasNeg [-1500000, 2250000]) (render6 2250000)
          ++ render6 2250000).length
        = (render6n (Int.natAbs 2250000)).length + 1
      ∧ headCh (signPad true (colHasNeg [-1500000, 2250000]) (render6 2250000)
          ++ render6 2250000)
        = (if (2250000 : Int) < 0 then '-' else ' '))
    ∧ ((signPad true (colHasNeg [-1500000, 2250000]) (render6 (-1500000))
          ++ render6 (-1500000)).length
        = (render6n (Int.natAbs (-1500000))).length + 1
      ∧ headCh (signPad true (colHasNeg [-1500000, 2250000]) (render6 (-1500000))
          ++ render6 (-1500000))
        = (if (-1500000 : Int) < 0 then '-' else ' '))
    ∧ (parseFloatTok "-1.5" = .ok (-1500000)
      ∧ (headCh "-1.5" = '-' ∧ signPad true true "-1.5" ++ "-1.5" = "-1.5"))
    ∧ (runW [WOp.header "A" 2, WOp.field "a:d" [TWValue.vInt (-3)], WOp.endLine,
             WOp.field "a:d" [TWValue.vInt 5], WOp.endLine] initW).toOption.map
        TextWriter.outLines
      = some ["[ A : 2 ]", " { a:d }", "// --- ", "   -3 ", "    5 ", ""]
    ∧ (runW [WOp.header "F" 2, WOp.field "f:f" [TWValue.vFloat (-1500000)], WOp.endLine,
             WOp.field "f:f" [TWValue.vFloat 2250000], WOp.endLine] initW).toOption.map
        TextWriter.outLines
      = some ["[ F : 2 ]", " { f:f       }", "// --------- ", "   -1.500000",
              "    2.250000", ""] :=
  ⟨by decide,
   sign_column_reserved.1 [-3, 5] (by decide) 5 (by decide),
   sign_column_reserved.1 [-3, 5] (by decide) (-3) (by decide),
   by decide,
   sign_column_reserved.2.1 [-1500000, 2250000] (by decide) 2250000 (by decide),
   sign_column_reserved.2.1 [-1500000, 2250000] (by decide) (-1500000) (by decide),
   ⟨by rfl, sign_column_reserved.2.2.1 "-1.5" (-1500000) (by rfl) (by decide)⟩,
   by decide, by decide⟩

/-- A stored section is found under its name. -/
theorem lookup_store_self (m : List (String × PSection)) (n : String) (s : PSection) :
    lookupSec (storeSec m n s) n = some s := by
  induction m with
  | nil => simp [storeSec, lookupSec]
  | cons h t ih =>
    obtain ⟨k, v⟩ := h
    by_cases hk : k = n
    · simp [storeSec, lookupSec, hk]
    · simp [storeSec, lookupSec, hk, ih]

/-- Storing a section never removes another name from the dictionary. -/
theorem lookup_store_mono (m : List (String × PSection)) (n : String) (s : PSection)
    (x : String) (hx : (lookupSec m x).isSome = true) :
    (lookupSec (storeSec m n s) x).isSome = true := by
  induction m with
  | nil => simp [lookupSec] at hx
  | cons h t ih =>
    obtain ⟨k, v⟩ := h
    simp only [storeSec]
    by_cases hk : k = n
    · subst hk
      simp only [if_pos rfl, lookupSec]
      by_cases hkx : k = x
      · simp [hkx]
      · simp only [lookupSec, hkx, if_false, if_neg hkx] at hx ⊢
        exact hx
    · simp only [if_neg hk, lookupSec]
      by_cases hkx : k = x
      · simp [hkx]
      · simp only [lookupSec, if_neg hkx] at hx ⊢
        exact ih hx

/-- A successful `parse_section` call stores exactly one section under the
given name on top of the accumulated dictionary. -/
theorem parseSection_shape (n : String) (cs : Option String) (content : String)
    (acc m : List (String × PSection)) (h : parseSection n cs content acc = .ok m) :
    ∃ sec, parseSectionCore n cs content = .ok sec ∧ m = storeSec acc n sec := by
  rw [parseSection] at h
  cases hc : parseSectionCore n cs content with
  | error e => rw [hc] at h; simp [Except.map] at h
  | ok sec =>
    rw [hc] at h
    simp only [Except.map] at h
    injection h with h2
    exact ⟨sec, rfl, h2.symm⟩

/-- Invariant of the `parse_file` scanning loop: when it returns
successfully, every name already stored, the pending section's name, and
every section name still ahead in the line stream end up present in the
returned dictionary. -/
theorem parseFileGo_complete :
    ∀ (ls : List (List Char)) (inQ : Bool) (cur : Option (String × Option String))
      (content : String) (acc m : List (String × PSection)),
      parseFileGo ls inQ cur content acc = .ok m →
      ((∀ x, (lookupSec acc x).isSome = true → (lookupSec m x).isSome = true)
       ∧ (∀ p : String × Option String, cur = some p → (lookupSec m p.1).isSome = true)
       ∧ (∀ n, n ∈ headerNamesGo ls inQ → (lookupSec m n).isSome = true)) := by
  intro ls
  induction ls with
  | nil =>
    intro inQ cur content acc m h
    cases cur with
    | none =>
      simp only [parseFileGo] at h
      injection h with h2
      subst h2
      refine ⟨fun x hx => hx, ?_, ?_⟩
      · intro p hp; cases hp
      · intro n hn; simp [headerNamesGo] at hn
    | some p0 =>
      obtain ⟨n0, cs0⟩ := p0
      simp only [parseFileGo] at h
      obtain ⟨sec, hcore, rfl⟩ := parseSection_shape n0 cs0 content acc m h
      refine ⟨fun x hx => lookup_store_mono acc n0 sec x hx, ?_, ?_⟩
      · intro p hp
        injection hp with h3
        subst h3
        rw [lookup_store_self]
        rfl
      · intro n hn; simp [headerNamesGo] at hn
  | cons lraw rest ih =>
    intro inQ cur content acc m h
    simp only [parseFileGo] at h
    simp only [headerNamesGo]
    cases hcl : classifyLine inQ lraw with
    | skip q =>
      rw [hcl] at h
      simp only at h
      obtain ⟨p1, p2, p3⟩ := ih q cur content acc m h
      exact ⟨p1, p2, fun n hn => p3 n hn⟩
    | hdr q n cs =>
      rw [hcl] at h
      simp only at h
      cases cur with
      | none =>
        obtain ⟨p1, p2, p3⟩ := ih q (some (n, cs)) "" acc m h
        refine ⟨p1, ?_, ?_⟩
        · intro p hp; cases hp
        · intro x hx
          have hx1 : x ∈ n :: headerNamesGo rest q := hx
          rcases List.mem_cons.mp hx1 with rfl | hx2
          · exact p2 (x, cs) rfl
          · exact p3 x hx2
      | some pc =>
        obtain ⟨pn, pcs⟩ := pc
        have h2 : (match parseSection pn pcs content acc with
            | Except.error e => (Except.error e : Except PErr (List (String × PSection)))
            | Except.ok acc2 => parseFileGo rest q (some (n, cs)) "" acc2) = Except.ok m := h
        cases hps : parseSection pn pcs content acc with
        | error e =>
          rw [hps] at h2
          exact Except.noConfusion h2
        | ok acc2 =>
          rw [hps] at h2
          obtain ⟨sec, hcore, rfl⟩ := parseSection_shape pn pcs content acc acc2 hps
          obtain ⟨p1, p2, p3⟩ := ih q (some (n, cs)) "" (storeSec acc pn sec) m h2
          refine ⟨?_, ?_, ?_⟩
          · intro x hx
            exact p1 x (lookup_store_mono acc pn sec x hx)
          · intro p hp
            injection hp with h3
            subst h3
            refine p1 pn ?_
            rw [lookup_store_self]
            rfl
          · intro x hx
            have hx1 : x ∈ n :: headerNamesGo rest q := hx
            rcases List.mem_cons.mp hx1 with rfl | hx2
            · exact p2 (x, cs) rfl
            · exact p3 x hx2
    | body q l =>
      rw [hcl] at h
      simp only at h
      cases cur with
      | none =>
        obtain ⟨p1, p2, p3⟩ := ih q none content acc m h
        exact ⟨p1, p2, fun x hx => p3 x hx⟩
      | some pc =>
        obtain ⟨p1, p2, p3⟩ := ih q (some pc) (content ++ String.mk l ++ "\n") acc m h
        exact ⟨p1, p2, fun x hx => p3 x hx⟩

/-- Claim C9: `parse_file` is atomic from the caller's point of view — a
call either fails before returning anything, or returns a dictionary in
which every section header of the given text is present (so no returned
mapping ever reflects only some of the text's sections). -/
theorem parse_file_atomicity (doc : String) (m : List (String × PSection))
    (h : parseFile doc = .ok m) :
    ∀ n, n ∈ headerNames doc → (lookupSec m n).isSome = true := by
  intro n hn
  exact (parseFileGo_complete (splitAllCh '\n' doc.data) false none "" [] m h).2.2 n hn

/-- Claim C9, witness: a two-section document parses successfully and both
of its section names are found in the returned dictionary. -/
theorem parse_file_atomicity_witness :
    "B" ∈ headerNames "[ A ]\n { x:d }\n 7\n[ B ]\n { y:d }\n 8\n"
    ∧ (parseFile "[ A ]\n { x:d }\n 7\n[ B ]\n { y:d }\n 8\n").toOption.map
        (fun m => ((lookupSec m "A").isSome, (lookupSec m "B").isSome))
      = some (true, true) := by
  refine ⟨by decide, ?_⟩
  cases hp : parseFile "[ A ]\n { x:d }\n 7\n[ B ]\n { y:d }\n 8\n" with
  | error e =>
    have hs : (parseFile "[ A ]\n { x:d }\n 7\n[ B ]\n { y:d }\n 8\n").toOption.isSome = true := by
      decide
    rw [hp] at hs
    cases hs
  | ok m =>
    simp only [Except.toOption, Option.map]
    rw [parse_file_atomicity _ m hp "A" (by decide),
      parse_file_atomicity _ m hp "B" (by decide)]

/-- Claim C10: `add_header` with a negative count sets the line budget to
exactly 1 and emits a countless header; the first `add_end_line` finalizes
and flushes the section, and a further `add_field` fails the
"Too many lines added" assertion — a no-count section holds at most one
data line. -/
theorem no_count_section_budget_one :
    (runW [WOp.header "A" (-1)] initW).toOption.map
        (fun w => (w.lineCount, w.blockNameLine))
      = some (1, "[ A ]")
    ∧ (runW [WOp.header "A" (-1), WOp.field "a:d" [TWValue.vInt 7], WOp.endLine]
        initW).toOption.map TextWriter.outLines
      = some ["[ A ]", " { a:d }", "// --- ", "   7  ", ""]
    ∧ errSide (runW [WOp.header "A" (-1), WOp.field "a:d" [TWValue.vInt 7], WOp.endLine,
                     WOp.field "a:d" [TWValue.vInt 8]] initW)
      = some WErr.tooManyLines := by
  decide

end Matx


